import Mathlib

open scoped List

/-!
Verification development for the Security Posture Assessment Engine of the
agentcore-security-assessment repository.

The repository ships the React chat UI (`web-chatbot/src/App.js`) together with
prose documentation of the engine (README.md, DIAGRAMS.md, test reports); the
Python engine sources themselves (runtime/security_tools.py etc.) are not part
of the checked-in tree.  The engine components below (Scorer, Aggregator,
Tool Dispatcher, Context Store) are therefore modelled from the specification,
while the UI-side definitions at the end of the file are translated directly
from `web-chatbot/src/App.js`.
-/

namespace SecEngine

/-- Severity of a finding, ordered LOW < MEDIUM < HIGH < CRITICAL. -/
inductive Severity
  | LOW
  | MEDIUM
  | HIGH
  | CRITICAL
  deriving DecidableEq, Repr, Fintype

/-- Numeric rank of a severity, respecting LOW < MEDIUM < HIGH < CRITICAL. -/
def Severity.rank : Severity → Nat
  | .LOW => 0
  | .MEDIUM => 1
  | .HIGH => 2
  | .CRITICAL => 3

/-- Modelled from the spec (§4.4 Scorer): the per-finding severity penalty,
CRITICAL 15, HIGH 8, MEDIUM 3, LOW 1. -/
def Severity.penalty : Severity → Nat
  | .CRITICAL => 15
  | .HIGH => 8
  | .MEDIUM => 3
  | .LOW => 1

/-- The fixed pillar set of the assessment framework (§3). -/
inductive Pillar
  | identityAccess
  | detectiveControls
  | infraProtection
  | dataProtection
  | incidentResponse
  deriving DecidableEq, Repr, Fintype

def Pillar.rank : Pillar → Nat
  | .identityAccess => 0
  | .detectiveControls => 1
  | .infraProtection => 2
  | .dataProtection => 3
  | .incidentResponse => 4

/-- The external security data sources (README: Security Hub, GuardDuty,
Inspector, IAM Access Analyzer). -/
inductive Source
  | securityHub
  | guardDuty
  | inspector
  | iamAnalyzer
  deriving DecidableEq, Repr, Fintype

def Source.rank : Source → Nat
  | .securityHub => 0
  | .guardDuty => 1
  | .inspector => 2
  | .iamAnalyzer => 3

/-- Canonical normalized finding (§3); `id` is stable within a source and is
modelled as a natural number. -/
@[ext] structure Finding where
  source : Source
  id : Nat
  severity : Severity
  pillar : Pillar
  discoveredAt : Nat
  deriving DecidableEq, Repr

/-- Health state of one source connector invocation (§3). -/
inductive HealthState
  | OK
  | DEGRADED
  | UNAVAILABLE
  | NOT_ENABLED
  deriving DecidableEq, Repr, Fintype

def HealthState.rank : HealthState → Nat
  | .OK => 0
  | .DEGRADED => 1
  | .UNAVAILABLE => 2
  | .NOT_ENABLED => 3

/-- Failure classification of a connector call (§4.1). -/
inductive FailReason
  | AUTH_DENIED
  | TIMEOUT
  | THROTTLED
  | NOT_ENABLED
  | UNKNOWN
  deriving DecidableEq, Repr, Fintype

def FailReason.rank : FailReason → Nat
  | .AUTH_DENIED => 0
  | .TIMEOUT => 1
  | .THROTTLED => 2
  | .NOT_ENABLED => 3
  | .UNKNOWN => 4

/-- One SourceHealth record (§3), produced once per connector invocation. -/
@[ext] structure SourceHealth where
  source : Source
  state : HealthState
  lastError : Option FailReason
  deriving DecidableEq, Repr

/-! ### Scorer -/

/-- Findings assigned to one pillar. -/
def pillarFindings (p : Pillar) (fs : List Finding) : List Finding :=
  fs.filter (fun f => f.pillar == p)

/-- Modelled from the spec (§4.4): total severity-weighted penalty of the
findings assigned to one pillar. -/
def pillarPenalty (p : Pillar) (fs : List Finding) : Nat :=
  ((pillarFindings p fs).map (fun f => f.severity.penalty)).sum

/-- Modelled from the spec (§4.4): deduction-based pillar score, starting at
100 and subtracting the severity-weighted penalty per finding, floored at 0
(natural-number subtraction truncates at 0). -/
def pillarScore (p : Pillar) (fs : List Finding) : Nat :=
  100 - pillarPenalty p fs

/-- Confidence qualifier of a pillar score (§3, glossary). -/
inductive Confidence
  | full
  | reduced
  deriving DecidableEq, Repr

/-- Modelled from the spec (§2, README): the sources relevant to each pillar
of the framework. -/
def relevantSources : Pillar → List Source
  | .identityAccess => [.iamAnalyzer, .securityHub]
  | .detectiveControls => [.guardDuty, .securityHub]
  | .infraProtection => [.inspector, .securityHub]
  | .dataProtection => [.securityHub]
  | .incidentResponse => [.securityHub]

/-- Modelled from the spec (§4.4): a pillar's confidence is reduced when a
relevant source is UNAVAILABLE or NOT_ENABLED. -/
def pillarConfidence (p : Pillar) (health : List SourceHealth) : Confidence :=
  if (relevantSources p).any (fun s =>
      health.any (fun h =>
        h.source == s && (h.state == HealthState.UNAVAILABLE
          || h.state == HealthState.NOT_ENABLED))) then
    Confidence.reduced
  else
    Confidence.full

/-- The five pillars, in rank order. -/
def allPillars : List Pillar :=
  [.identityAccess, .detectiveControls, .infraProtection, .dataProtection, .incidentResponse]

/-- Modelled from the spec (§4.4): fixed per-pillar weight table; weights sum
to 1 and Identity & Access and Detective Controls carry the largest weights.
Real-valued weights are modelled as rationals. -/
def pillarWeight : Pillar → ℚ
  | .identityAccess => 3 / 10
  | .detectiveControls => 1 / 4
  | .infraProtection => 1 / 5
  | .dataProtection => 3 / 20
  | .incidentResponse => 1 / 10

/-- Weighted mean of per-pillar scores (intermediate, unrounded value). -/
def weightedMean (score : Pillar → Nat) : ℚ :=
  (allPillars.map (fun p => pillarWeight p * (score p : ℚ))).sum

/-- Round-half-up of a rational to an integer. -/
def roundHalfUp (q : ℚ) : ℤ :=
  ⌊q + 1 / 2⌋

/-- Modelled from the spec (§4.4): overall score is the weighted mean of the
pillar scores, rounded half-up exactly once at the final step. -/
def overallScore (score : Pillar → Nat) : ℤ :=
  roundHalfUp (weightedMean score)

/-! ### Aggregator -/

/-- Per-connector outcome collected by the Aggregator (§4.3): success with a
list of normalized findings, a classified failure, or hitting the
per-assessment deadline. -/
inductive Outcome
  | success (findings : List Finding)
  | failure (reason : FailReason)
  | timeout
  deriving DecidableEq, Repr

def isSuccess : Outcome → Bool
  | .success _ => true
  | .failure _ => false
  | .timeout => false

/-- Findings contributed by one connector outcome; only successful connectors
contribute findings. -/
def findingsOf : Outcome → List Finding
  | .success fs => fs
  | .failure _ => []
  | .timeout => []

/-- Modelled from the spec (§4.3, §7): every connector outcome yields exactly
one SourceHealth entry; connector-level failures are recovered locally into
an UNAVAILABLE entry carrying the failure reason, and a connector still
pending at the deadline is recorded as UNAVAILABLE with reason TIMEOUT. -/
def healthOf (s : Source) : Outcome → SourceHealth
  | .success _ => ⟨s, .OK, none⟩
  | .failure r => ⟨s, .UNAVAILABLE, some r⟩
  | .timeout => ⟨s, .UNAVAILABLE, some .TIMEOUT⟩

/-- De-duplication key of a finding (§4.3): the pair (source, id). -/
def fkey (f : Finding) : Source × Nat :=
  (f.source, f.id)

/-- Deterministic linear order on findings used for the sorted output (§5):
by source identifier, then finding id, with the remaining fields as further
tie-breakers so that the order is antisymmetric on whole records. -/
def fleB (f g : Finding) : Bool :=
  (f.source.rank < g.source.rank) ||
  (f.source.rank == g.source.rank &&
    ((f.id < g.id) ||
     (f.id == g.id &&
       ((f.severity.rank < g.severity.rank) ||
        (f.severity.rank == g.severity.rank &&
          ((f.pillar.rank < g.pillar.rank) ||
           (f.pillar.rank == g.pillar.rank &&
             f.discoveredAt ≤ g.discoveredAt)))))))

def fle (f g : Finding) : Prop := fleB f g = true

instance fle_decidable : DecidableRel fle :=
  fun f g => inferInstanceAs (Decidable (fleB f g = true))

/-- Rank of the optional lastError field, for ordering health entries. -/
def errRank : Option FailReason → Nat
  | none => 0
  | some r => r.rank + 1

/-- Deterministic linear order on SourceHealth entries (§5): by source
identifier, then state, then lastError. -/
def hleB (a b : SourceHealth) : Bool :=
  (a.source.rank < b.source.rank) ||
  (a.source.rank == b.source.rank &&
    ((a.state.rank < b.state.rank) ||
     (a.state.rank == b.state.rank &&
       errRank a.lastError ≤ errRank b.lastError)))

def hle (a b : SourceHealth) : Prop := hleB a b = true

instance hle_decidable : DecidableRel hle :=
  fun a b => inferInstanceAs (Decidable (hleB a b = true))

/-- Presentation order of a findings sequence (§3, §6): severity descending,
then recency (discoveredAt) descending, with source, id and pillar as
deterministic tie-breakers. -/
def gleB (f g : Finding) : Bool :=
  (g.severity.rank < f.severity.rank) ||
  (g.severity.rank == f.severity.rank &&
    ((g.discoveredAt < f.discoveredAt) ||
     (g.discoveredAt == f.discoveredAt &&
       ((f.source.rank < g.source.rank) ||
        (f.source.rank == g.source.rank &&
          ((f.id < g.id) ||
           (f.id == g.id && f.pillar.rank ≤ g.pillar.rank)))))))

def gle (f g : Finding) : Prop := gleB f g = true

instance gle_decidable : DecidableRel gle :=
  fun f g => inferInstanceAs (Decidable (gleB f g = true))

def sortFindings (l : List Finding) : List Finding :=
  List.insertionSort fle l

def sortHealth (l : List SourceHealth) : List SourceHealth :=
  List.insertionSort hle l

/-- Keyed de-duplication: keep a finding when its (source, id) key has not
been seen yet. -/
def dedupAux (seen : List (Source × Nat)) : List Finding → List Finding
  | [] => []
  | f :: rest =>
    if fkey f ∈ seen then dedupAux seen rest
    else f :: dedupAux (fkey f :: seen) rest

/-- Modelled from the spec (§4.3): de-duplication of merged findings on the
key (source, id). -/
def dedupByKey (l : List Finding) : List Finding :=
  dedupAux [] l

/-- The raw merged findings: the union (concatenation) of the findings of all
successful connectors, in connector completion order. -/
def rawFindings (results : List (Source × Outcome)) : List Finding :=
  (results.map (fun r => findingsOf r.2)).flatten

/-- Output of one Aggregator run (§4.3): merged findings, one health entry per
configured connector, and a low-confidence flag set when no source returned
usable data. -/
structure AggResult where
  findings : List Finding
  sourceHealth : List SourceHealth
  lowConfidence : Bool
  deriving DecidableEq, Repr

/-- Modelled from the spec (§4.3, §5): the Aggregator merges the successful
connectors' findings (de-duplicated on (source, id)), records exactly one
health entry per configured connector, sorts both outputs deterministically
before returning, and flags the result low-confidence when all sources
failed.  The input list carries one entry per configured connector, in
connector completion order; the function is total, so a run always produces
a result. -/
def aggregate (results : List (Source × Outcome)) : AggResult where
  findings := dedupByKey (sortFindings (rawFindings results))
  sourceHealth := sortHealth (results.map (fun r => healthOf r.1 r.2))
  lowConfidence := decide (∀ r ∈ results, isSuccess r.2 = false)

/-! ### get-findings query -/

/-- Modelled from the spec (§6, §8): the get-findings operation filters the
findings at or above the requested severity, orders them severity-descending
then recency-descending, and truncates to the requested limit. -/
def getFindings (sev : Severity) (limit : Nat) (fs : List Finding) : List Finding :=
  (List.insertionSort gle (fs.filter (fun f => sev.rank ≤ f.severity.rank))).take limit

/-! ### Tool Dispatcher -/

/-- Typed error taxonomy (§7). -/
inductive ErrorKind
  | INVALID_OPERATION
  | INVALID_ARGUMENT
  | SOURCE_UNAVAILABLE
  | DEADLINE_EXCEEDED
  | INTERNAL
  deriving DecidableEq, Repr

/-- The fixed enumerated operation set of the Tool Dispatcher (§4.7). -/
def validOps : List String :=
  ["check-services", "get-findings", "analyze-posture", "explore-resources", "check-compliance"]

/-- Arguments of a dispatcher request (§6), restricted to the fields the
modelled operations consume. -/
structure ToolArgs where
  severity : Severity
  limit : Nat
  deriving DecidableEq, Repr

/-- Operation-specific success payloads (§6). -/
inductive ToolData
  | serviceStatus (health : List SourceHealth)
  | findingsData (fs : List Finding)
  | posture (overall : ℤ) (assessment : AggResult)
  | resources
  | compliance
  deriving DecidableEq, Repr

/-- Structured dispatcher response: success with a payload, or a typed
error (§6). -/
inductive DispatchResult
  | ok (data : ToolData)
  | error (kind : ErrorKind) (message : String)
  deriving DecidableEq, Repr

/-- Overall posture score of an aggregated assessment. -/
def overallOf (a : AggResult) : ℤ :=
  overallScore (fun p => pillarScore p a.findings)

/-- Modelled from the spec (§4.7): the Tool Dispatcher validates the operation
name against the fixed set before touching any connector; an unknown name
fails fast with INVALID_OPERATION.  The second component of the result lists
the connectors invoked while serving the request. -/
def dispatch (op : String) (args : ToolArgs) (connectors : List (Source × Outcome)) :
    DispatchResult × List Source :=
  if op = "check-services" then
    (.ok (.serviceStatus (aggregate connectors).sourceHealth), connectors.map (·.1))
  else if op = "get-findings" then
    (.ok (.findingsData (getFindings args.severity args.limit (aggregate connectors).findings)),
      connectors.map (·.1))
  else if op = "analyze-posture" then
    (.ok (.posture (overallOf (aggregate connectors)) (aggregate connectors)),
      connectors.map (·.1))
  else if op = "explore-resources" then
    (.ok .resources, connectors.map (·.1))
  else if op = "check-compliance" then
    (.ok .compliance, connectors.map (·.1))
  else
    (.error .INVALID_OPERATION ("Unknown operation: " ++ op), [])

/-! ### Assessment Cache / Context Store -/

/-- A cached assessment snapshot, stamped with its generation time. -/
structure Snapshot where
  generatedAt : Nat
  assessment : AggResult
  deriving DecidableEq, Repr

/-- The Context Store, keyed by session id. -/
abbrev ContextStore := List (String × Snapshot)

def storeGet (st : ContextStore) (sid : String) : Option Snapshot :=
  (st.find? (fun e => e.1 == sid)).map (·.2)

/-- Modelled from the spec (§4.6): concurrent puts for the same sessionId
follow last-write-wins by wall-clock generatedAt; a put with an older
generatedAt than the stored entry is a no-op. -/
def storePut (st : ContextStore) (sid : String) (a : Snapshot) : ContextStore :=
  match storeGet st sid with
  | some old =>
    if a.generatedAt < old.generatedAt then st
    else st.map (fun e => if e.1 == sid then (sid, a) else e)
  | none => (sid, a) :: st

/-! ### Order properties of the deterministic sort relations -/

instance fle_isTotal : IsTotal Finding fle where
  total a b := by
    simp only [fle, fleB, Bool.or_eq_true, Bool.and_eq_true, decide_eq_true_eq, beq_iff_eq]
    omega

instance fle_isTrans : IsTrans Finding fle where
  trans a b c hab hbc := by
    simp only [fle, fleB, Bool.or_eq_true, Bool.and_eq_true, decide_eq_true_eq,
      beq_iff_eq] at hab hbc ⊢
    omega

instance fle_isAntisymm : IsAntisymm Finding fle where
  antisymm a b hab hba := by
    have hsrc : ∀ x y : Source, x.rank = y.rank → x = y := by decide
    have hsev : ∀ x y : Severity, x.rank = y.rank → x = y := by decide
    have hpil : ∀ x y : Pillar, x.rank = y.rank → x = y := by decide
    simp only [fle, fleB, Bool.or_eq_true, Bool.and_eq_true, decide_eq_true_eq,
      beq_iff_eq] at hab hba
    ext
    · exact hsrc _ _ (by omega)
    · omega
    · exact hsev _ _ (by omega)
    · exact hpil _ _ (by omega)
    · omega

instance hle_isTotal : IsTotal SourceHealth hle where
  total a b := by
    simp only [hle, hleB, Bool.or_eq_true, Bool.and_eq_true, decide_eq_true_eq, beq_iff_eq]
    omega

instance hle_isTrans : IsTrans SourceHealth hle where
  trans a b c hab hbc := by
    simp only [hle, hleB, Bool.or_eq_true, Bool.and_eq_true, decide_eq_true_eq,
      beq_iff_eq] at hab hbc ⊢
    omega

instance hle_isAntisymm : IsAntisymm SourceHealth hle where
  antisymm a b hab hba := by
    have hsrc : ∀ x y : Source, x.rank = y.rank → x = y := by decide
    have hst : ∀ x y : HealthState, x.rank = y.rank → x = y := by decide
    have herr : ∀ x y : Option FailReason, errRank x = errRank y → x = y := by decide
    simp only [hle, hleB, Bool.or_eq_true, Bool.and_eq_true, decide_eq_true_eq,
      beq_iff_eq] at hab hba
    refine SourceHealth.ext (hsrc _ _ (by omega)) (hst _ _ (by omega)) (herr _ _ (by omega))

instance gle_isTotal : IsTotal Finding gle where
  total a b := by
    simp only [gle, gleB, Bool.or_eq_true, Bool.and_eq_true, decide_eq_true_eq, beq_iff_eq]
    omega

instance gle_isTrans : IsTrans Finding gle where
  trans a b c hab hbc := by
    simp only [gle, gleB, Bool.or_eq_true, Bool.and_eq_true, decide_eq_true_eq,
      beq_iff_eq] at hab hbc ⊢
    omega

instance gle_isAntisymm : IsAntisymm Finding gle where
  antisymm a b hab hba := by
    have hsrc : ∀ x y : Source, x.rank = y.rank → x = y := by decide
    have hsev : ∀ x y : Severity, x.rank = y.rank → x = y := by decide
    have hpil : ∀ x y : Pillar, x.rank = y.rank → x = y := by decide
    simp only [gle, gleB, Bool.or_eq_true, Bool.and_eq_true, decide_eq_true_eq,
      beq_iff_eq] at hab hba
    ext
    · exact hsrc _ _ (by omega)
    · omega
    · exact hsev _ _ (by omega)
    · exact hpil _ _ (by omega)
    · omega

end SecEngine

namespace UI

/-- One chat message of the React UI: `type` is the CSS role ("user" or
"bot"), `content` the displayed text (App.js). -/
structure Message where
  type : String
  content : String
  deriving DecidableEq, Repr

/-- The component state fields of App.js that sendMessage reads or writes:
messages, input, loading, isAuthenticated. -/
structure UIState where
  messages : List Message
  input : String
  loading : Bool
  isAuthenticated : Bool
  deriving DecidableEq, Repr

/-- Result of awaiting the Bedrock agent invocation inside sendMessage: the
accumulated streamed response text, or a thrown error's message. -/
inductive InvokeOutcome
  | success (text : String)
  | failure (errMessage : String)
  deriving DecidableEq, Repr

/-- The InvokeAgentCommand fields constructed by the UI (App.js). -/
structure InvokeCommand where
  agentId : String
  agentAliasId : String
  sessionId : String
  inputText : String
  deriving DecidableEq, Repr

/-- From App.js lines 190-195: sendMessage builds its InvokeAgentCommand with
the fixed agent ids and a sessionId freshly derived from the clock,
session-${Date.now()}; `now` models Date.now(). -/
def sendMessageCommand (st : UIState) (now : Nat) : InvokeCommand :=
  { agentId := "KS91Z9H2MA"
    agentAliasId := "UEWYRHGIEL"
    sessionId := "session-" ++ Nat.repr now
    inputText := st.input }

/-- From App.js lines 54-59: getSpecificMetrics builds its sessionId as
${type}-${Date.now()}, from the metric type and the clock. -/
def getSpecificMetricsSessionId (ty : String) (now : Nat) : String :=
  ty ++ "-" ++ Nat.repr now

/-- Model of JavaScript String.prototype.trim as used by App.js
(`input.trim()`): strip leading and trailing whitespace.  Defined by
structural recursion on the character list so that it evaluates on concrete
inputs. -/
def trimmed (s : String) : String :=
  ⟨((s.data.dropWhile Char.isWhitespace).reverse.dropWhile Char.isWhitespace).reverse⟩

/-- From App.js lines 170-219: sendMessage returns unchanged when the trimmed
input is empty or the user is not authenticated; otherwise it appends the
user message, clears the input, sets loading, awaits the invocation (its
outcome passed here as a parameter), appends either the response text or a
single bot message "Error: " followed by the error's message, and finally
resets loading to false on both paths.  The function is total: no error
propagates out of it. -/
def sendMessage (st : UIState) (outcome : InvokeOutcome) : UIState :=
  if trimmed st.input == "" || !st.isAuthenticated then st
  else
    let afterSend : UIState :=
      { st with
        messages := st.messages ++ [{ type := "user", content := st.input }]
        input := ""
        loading := true }
    match outcome with
    | .success text =>
      { afterSend with
        messages := afterSend.messages ++ [{ type := "bot", content := text }]
        loading := false }
    | .failure m =>
      { afterSend with
        messages := afterSend.messages ++ [{ type := "bot", content := "Error: " ++ m }]
        loading := false }

end UI

namespace SecEngine

/-! ### Concrete test vectors (inputs for the scenario instances below) -/

/-- Test vector (spec §8 scenario): two CRITICAL Identity & Access findings,
one HIGH Infrastructure Protection finding, no Detective Controls
findings. -/
def scenarioFindings : List Finding :=
  [⟨.securityHub, 1, .CRITICAL, .identityAccess, 10⟩,
   ⟨.securityHub, 2, .CRITICAL, .identityAccess, 11⟩,
   ⟨.inspector, 3, .HIGH, .infraProtection, 12⟩]

/-- Test vector (spec §8 scenario): the source relevant to Detective Controls
is unavailable. -/
def scenarioHealth : List SourceHealth :=
  [⟨.securityHub, .OK, none⟩,
   ⟨.inspector, .OK, none⟩,
   ⟨.guardDuty, .UNAVAILABLE, some .TIMEOUT⟩]

/-- Test vector (spec §8 scenario): 5 HIGH and 2 CRITICAL findings plus LOW
and MEDIUM noise, for the get-findings filter and limit scenario. -/
def scenarioQueryFindings : List Finding :=
  [⟨.securityHub, 1, .HIGH, .infraProtection, 1⟩,
   ⟨.securityHub, 2, .HIGH, .infraProtection, 2⟩,
   ⟨.securityHub, 3, .HIGH, .infraProtection, 3⟩,
   ⟨.securityHub, 4, .HIGH, .infraProtection, 4⟩,
   ⟨.securityHub, 5, .HIGH, .infraProtection, 5⟩,
   ⟨.guardDuty, 6, .CRITICAL, .identityAccess, 1⟩,
   ⟨.guardDuty, 7, .CRITICAL, .identityAccess, 2⟩,
   ⟨.securityHub, 8, .LOW, .dataProtection, 9⟩,
   ⟨.securityHub, 9, .MEDIUM, .dataProtection, 9⟩]

/-- Test vector: connector results where every configured source fails. -/
def scenarioAllFail : List (Source × Outcome) :=
  [(.securityHub, .timeout), (.guardDuty, .failure .AUTH_DENIED)]

/-- Test vector: two connector results, completing in one order. -/
def scenarioRun : List (Source × Outcome) :=
  [(.securityHub, .success [⟨.securityHub, 1, .HIGH, .infraProtection, 4⟩]),
   (.guardDuty, .timeout)]

/-- The same connector results as `scenarioRun`, completing in the other
order. -/
def scenarioRunSwapped : List (Source × Outcome) :=
  [(.guardDuty, .timeout),
   (.securityHub, .success [⟨.securityHub, 1, .HIGH, .infraProtection, 4⟩])]

/-- Test vector: one source reporting two raw records sharing id 7. -/
def scenarioDup : List (Source × Outcome) :=
  [(.securityHub, .success
      [⟨.securityHub, 7, .HIGH, .infraProtection, 5⟩,
       ⟨.securityHub, 7, .HIGH, .infraProtection, 9⟩])]

/-! ### Helper lemmas about de-duplication and sorting -/

theorem dedupAux_sublist (seen : List (Source × Nat)) (l : List Finding) :
    dedupAux seen l <+ l := by
  induction l generalizing seen with
  | nil => exact List.Sublist.refl _
  | cons f rest ih =>
    by_cases h : fkey f ∈ seen
    · simp only [dedupAux, if_pos h]
      exact (ih seen).trans (List.sublist_cons_self f rest)
    · simp only [dedupAux, if_neg h]
      exact List.Sublist.cons₂ f (ih (fkey f :: seen))

theorem dedupAux_key_not_seen (seen : List (Source × Nat)) (l : List Finding)
    (g : Finding) (hg : g ∈ dedupAux seen l) : fkey g ∉ seen := by
  induction l generalizing seen with
  | nil => simp [dedupAux] at hg
  | cons f rest ih =>
    by_cases h : fkey f ∈ seen
    · simp only [dedupAux, if_pos h] at hg
      exact ih seen hg
    · simp only [dedupAux, if_neg h, List.mem_cons] at hg
      rcases hg with rfl | hg
      · exact h
      · intro hmem
        exact ih (fkey f :: seen) hg (List.mem_cons_of_mem _ hmem)

theorem dedupAux_keys_nodup (seen : List (Source × Nat)) (l : List Finding) :
    ((dedupAux seen l).map fkey).Nodup := by
  induction l generalizing seen with
  | nil => simp [dedupAux]
  | cons f rest ih =>
    by_cases h : fkey f ∈ seen
    · simp only [dedupAux, if_pos h]
      exact ih seen
    · simp only [dedupAux, if_neg h, List.map_cons, List.nodup_cons]
      refine ⟨fun hmem => ?_, ih (fkey f :: seen)⟩
      rcases List.mem_map.mp hmem with ⟨g, hg, hkey⟩
      exact dedupAux_key_not_seen (fkey f :: seen) rest g hg
        (by rw [hkey]; exact List.mem_cons_self _ _)

theorem dedupAux_complete (seen : List (Source × Nat)) (l : List Finding)
    (f : Finding) (hf : f ∈ l) (hns : fkey f ∉ seen) :
    ∃ g ∈ dedupAux seen l, fkey g = fkey f := by
  induction l generalizing seen with
  | nil => cases hf
  | cons f0 rest ih =>
    by_cases h : fkey f0 ∈ seen
    · simp only [dedupAux, if_pos h]
      rcases List.mem_cons.mp hf with rfl | hf'
      · exact absurd h hns
      · exact ih seen hf' hns
    · simp only [dedupAux, if_neg h]
      rcases List.mem_cons.mp hf with rfl | hf'
      · exact ⟨f, List.mem_cons_self _ _, rfl⟩
      · by_cases hk : fkey f = fkey f0
        · exact ⟨f0, List.mem_cons_self _ _, hk.symm⟩
        · rcases ih (fkey f0 :: seen) hf'
            (by
              intro hmem
              rcases List.mem_cons.mp hmem with h1 | h2
              · exact hk h1
              · exact hns h2) with ⟨g, hg, hkey⟩
          exact ⟨g, List.mem_cons_of_mem _ hg, hkey⟩

theorem sortFindings_sorted (l : List Finding) : (sortFindings l).Sorted fle :=
  List.sorted_insertionSort fle l

theorem sortFindings_perm (l : List Finding) : sortFindings l ~ l :=
  List.perm_insertionSort fle l

theorem sortFindings_congr {l l' : List Finding} (h : l ~ l') :
    sortFindings l = sortFindings l' :=
  List.eq_of_perm_of_sorted
    ((sortFindings_perm l).trans (h.trans (sortFindings_perm l').symm))
    (sortFindings_sorted l) (sortFindings_sorted l')

theorem sortHealth_sorted (l : List SourceHealth) : (sortHealth l).Sorted hle :=
  List.sorted_insertionSort hle l

theorem sortHealth_perm (l : List SourceHealth) : sortHealth l ~ l :=
  List.perm_insertionSort hle l

theorem sortHealth_congr {l l' : List SourceHealth} (h : l ~ l') :
    sortHealth l = sortHealth l' :=
  List.eq_of_perm_of_sorted
    ((sortHealth_perm l).trans (h.trans (sortHealth_perm l').symm))
    (sortHealth_sorted l) (sortHealth_sorted l')

theorem aggregate_perm_eq {rs rs' : List (Source × Outcome)} (h : rs ~ rs') :
    aggregate rs = aggregate rs' := by
  have hraw : rawFindings rs ~ rawFindings rs' :=
    List.Perm.flatten (h.map (fun r => findingsOf r.2))
  have hlow : (∀ r ∈ rs, isSuccess r.2 = false) ↔ (∀ r ∈ rs', isSuccess r.2 = false) :=
    ⟨fun H r hr => H r (h.mem_iff.mpr hr), fun H r hr => H r (h.mem_iff.mp hr)⟩
  simp only [aggregate, AggResult.mk.injEq]
  refine ⟨?_, sortHealth_congr (h.map (fun r => healthOf r.1 r.2)), decide_eq_decide.mpr hlow⟩
  rw [dedupByKey, dedupByKey, sortFindings_congr hraw]

theorem mem_aggregate_findings_raw {rs : List (Source × Outcome)} {f : Finding}
    (hf : f ∈ (aggregate rs).findings) : f ∈ rawFindings rs := by
  have h1 : f ∈ sortFindings (rawFindings rs) :=
    (dedupAux_sublist [] _).subset hf
  exact (sortFindings_perm _).subset h1

end SecEngine

namespace SecEngine

/-! ### Claim theorems -/

/-- C1: for every pillar and every merged finding set, the Scorer's pillar
score equals 100 minus the summed per-finding severity penalties (CRITICAL
15, HIGH 8, MEDIUM 3, LOW 1) over the findings assigned to that pillar,
floored at 0; in the scenario of spec paragraph 8, the 2 CRITICAL Identity &
Access findings give score 70, the 1 HIGH Infrastructure Protection finding
gives 92, and Detective Controls, whose only relevant source is unavailable,
scores 100 with reduced confidence rather than being penalized. -/
theorem pillarScore_deduction :
    (∀ (p : Pillar) (fs : List Finding),
        (pillarScore p fs : ℤ) =
          max 0 (100 - (((pillarFindings p fs).map (fun f => f.severity.penalty)).sum : ℤ))) ∧
    pillarScore .identityAccess scenarioFindings = 70 ∧
    pillarScore .infraProtection scenarioFindings = 92 ∧
    pillarScore .detectiveControls scenarioFindings = 100 ∧
    pillarConfidence .detectiveControls scenarioHealth = .reduced := by
  refine ⟨fun p fs => ?_, by decide, by decide, by decide, by decide⟩
  have h : pillarScore p fs = 100 - pillarPenalty p fs := rfl
  have h3 : ((pillarFindings p fs).map (fun f => (f.severity.penalty : ℤ))).sum
      = (pillarPenalty p fs : ℤ) := by
    rw [pillarPenalty, Nat.cast_list_sum, List.map_map]
    rfl
  rw [h, h3]
  omega

/-- C2: the per-pillar weight table is fixed with weights summing to 1, and
for every pillar score assignment bounded by 100 the overall score is an
integer in the interval from 0 to 100 equal to the weighted mean of the
pillar scores with round-half-up applied exactly once at the final step. -/
theorem overallScore_weighted_mean :
    (allPillars.map pillarWeight).sum = 1 ∧
    (∀ score : Pillar → Nat, (∀ p, score p ≤ 100) →
        0 ≤ overallScore score ∧ overallScore score ≤ 100 ∧
        overallScore score = ⌊weightedMean score + 1 / 2⌋) := by
  constructor
  · norm_num [allPillars, pillarWeight]
  · intro score h
    have n1 : (0 : ℚ) ≤ (score .identityAccess : ℚ) := Nat.cast_nonneg _
    have n2 : (0 : ℚ) ≤ (score .detectiveControls : ℚ) := Nat.cast_nonneg _
    have n3 : (0 : ℚ) ≤ (score .infraProtection : ℚ) := Nat.cast_nonneg _
    have n4 : (0 : ℚ) ≤ (score .dataProtection : ℚ) := Nat.cast_nonneg _
    have n5 : (0 : ℚ) ≤ (score .incidentResponse : ℚ) := Nat.cast_nonneg _
    have u1 : (score .identityAccess : ℚ) ≤ 100 := by exact_mod_cast h _
    have u2 : (score .detectiveControls : ℚ) ≤ 100 := by exact_mod_cast h _
    have u3 : (score .infraProtection : ℚ) ≤ 100 := by exact_mod_cast h _
    have u4 : (score .dataProtection : ℚ) ≤ 100 := by exact_mod_cast h _
    have u5 : (score .incidentResponse : ℚ) ≤ 100 := by exact_mod_cast h _
    have hm : 0 ≤ weightedMean score ∧ weightedMean score ≤ 100 := by
      unfold weightedMean allPillars
      simp only [List.map_cons, List.map_nil, List.sum_cons, List.sum_nil, pillarWeight]
      constructor <;> linarith
    refine ⟨Int.le_floor.mpr (by push_cast; linarith [hm.1]), ?_, rfl⟩
    have hlt : weightedMean score + 1 / 2 < 101 := by linarith [hm.2]
    have h2 : (⌊weightedMean score + 1 / 2⌋ : ℤ) < 101 :=
      Int.floor_lt.mpr (by exact_mod_cast hlt)
    unfold overallScore roundHalfUp
    omega

/-- Witness for C2 at the concrete all-pillars-78 score assignment. -/
theorem overallScore_weighted_mean_witness :
    0 ≤ overallScore (fun _ => 78) ∧ overallScore (fun _ => 78) ≤ 100 :=
  ⟨(overallScore_weighted_mean.2 (fun _ => 78) (fun _ => by norm_num)).1,
   (overallScore_weighted_mean.2 (fun _ => 78) (fun _ => by norm_num)).2.1⟩

/-- C3: the Aggregator is a total function that always yields a result: its
sourceHealth output has exactly one entry per configured connector (it is a
permutation of the per-connector health records, of the same length as the
input), a timed-out connector contributes one UNAVAILABLE/TIMEOUT health
entry and no findings (every output finding comes from a successful
connector), and when all connectors fail the output has zero findings,
all-UNAVAILABLE health and the low-confidence flag set. -/
theorem aggregate_always_answers :
    (∀ rs : List (Source × Outcome),
        List.Perm (aggregate rs).sourceHealth (rs.map (fun r => healthOf r.1 r.2)) ∧
        (aggregate rs).sourceHealth.length = rs.length) ∧
    (∀ (rs : List (Source × Outcome)) (s : Source), (s, Outcome.timeout) ∈ rs →
        (⟨s, .UNAVAILABLE, some .TIMEOUT⟩ : SourceHealth) ∈ (aggregate rs).sourceHealth) ∧
    (∀ (rs : List (Source × Outcome)) (f : Finding), f ∈ (aggregate rs).findings →
        ∃ r ∈ rs, ∃ fs, r.2 = Outcome.success fs ∧ f ∈ fs) ∧
    (∀ rs : List (Source × Outcome), (∀ r ∈ rs, isSuccess r.2 = false) →
        (aggregate rs).findings = [] ∧
        (∀ h ∈ (aggregate rs).sourceHealth, h.state = HealthState.UNAVAILABLE) ∧
        (aggregate rs).lowConfidence = true) := by
  refine ⟨fun rs => ?_, fun rs s hs => ?_, fun rs f hf => ?_, fun rs hfail => ?_⟩
  · have hperm := sortHealth_perm (rs.map (fun r => healthOf r.1 r.2))
    refine ⟨hperm, ?_⟩
    show (sortHealth (rs.map (fun r => healthOf r.1 r.2))).length = rs.length
    rw [hperm.length_eq, List.length_map]
  · have h1 : healthOf s Outcome.timeout ∈ rs.map (fun r => healthOf r.1 r.2) :=
      List.mem_map_of_mem _ hs
    exact (sortHealth_perm _).mem_iff.mpr h1
  · have h1 : f ∈ rawFindings rs := mem_aggregate_findings_raw hf
    rcases List.mem_flatten.mp h1 with ⟨l, hl, hfl⟩
    rcases List.mem_map.mp hl with ⟨r, hr, rfl⟩
    cases hout : r.2 with
    | success fs => exact ⟨r, hr, fs, hout, by rwa [hout] at hfl⟩
    | failure e => rw [hout] at hfl; cases hfl
    | timeout => rw [hout] at hfl; cases hfl
  · refine ⟨?_, ?_, decide_eq_true hfail⟩
    · have hraw : rawFindings rs = [] := by
        apply List.flatten_eq_nil_iff.mpr
        intro l hl
        rcases List.mem_map.mp hl with ⟨r, hr, rfl⟩
        have hr2 := hfail r hr
        cases hout : r.2 with
        | success fs => rw [hout] at hr2; simp [isSuccess] at hr2
        | failure e => rfl
        | timeout => rfl
      show dedupByKey (sortFindings (rawFindings rs)) = []
      rw [hraw]
      rfl
    · intro h hh
      have h1 : h ∈ rs.map (fun r => healthOf r.1 r.2) := (sortHealth_perm _).subset hh
      rcases List.mem_map.mp h1 with ⟨r, hr, rfl⟩
      have hr2 := hfail r hr
      cases hout : r.2 with
      | success fs => rw [hout] at hr2; simp [isSuccess] at hr2
      | failure e => rfl
      | timeout => rfl

/-- Witness for C3 at a concrete run in which every source fails. -/
theorem aggregate_always_answers_witness :
    (⟨Source.securityHub, .UNAVAILABLE, some .TIMEOUT⟩ : SourceHealth) ∈
        (aggregate scenarioAllFail).sourceHealth ∧
    (aggregate scenarioAllFail).findings = [] ∧
    (aggregate scenarioAllFail).lowConfidence = true :=
  ⟨aggregate_always_answers.2.1 scenarioAllFail Source.securityHub (by decide),
   (aggregate_always_answers.2.2.2 scenarioAllFail (by decide)).1,
   (aggregate_always_answers.2.2.2 scenarioAllFail (by decide)).2.2⟩

/-- C4: the Aggregator's merged findings are the union of the successful
connectors' findings de-duplicated on the key (source, id): the output keys
are pairwise distinct, every raw finding is represented by exactly one
output finding with its key, every output finding comes from the raw union,
and two raw records from the same source sharing an id yield a single
Finding in the merged output. -/
theorem merge_deduplicates :
    (∀ rs : List (Source × Outcome), (((aggregate rs).findings).map fkey).Nodup) ∧
    (∀ (rs : List (Source × Outcome)) (f : Finding), f ∈ rawFindings rs →
        ∃ g ∈ (aggregate rs).findings, fkey g = fkey f) ∧
    (∀ (rs : List (Source × Outcome)) (f : Finding), f ∈ (aggregate rs).findings →
        f ∈ rawFindings rs) ∧
    (aggregate scenarioDup).findings.length = 1 := by
  refine ⟨fun rs => dedupAux_keys_nodup [] _, fun rs f hf => ?_,
    fun rs f hf => mem_aggregate_findings_raw hf, by decide⟩
  have h1 : f ∈ sortFindings (rawFindings rs) := (sortFindings_perm _).mem_iff.mpr hf
  exact dedupAux_complete [] _ f h1 (List.not_mem_nil _)

/-- Witness for C4: the duplicated record of `scenarioDup` is represented in
the merged output by a finding with the same (source, id) key. -/
theorem merge_deduplicates_witness :
    ∃ g ∈ (aggregate scenarioDup).findings,
      fkey g = fkey ⟨.securityHub, 7, .HIGH, .infraProtection, 9⟩ :=
  merge_deduplicates.2.1 scenarioDup ⟨.securityHub, 7, .HIGH, .infraProtection, 9⟩ (by decide)

/-- C5: the Aggregator's output is invariant under permutation of connector
completion order, because the final findings and sourceHealth lists are
deterministically sorted (findings by source identifier then finding id,
health entries by source identifier) before being returned. -/
theorem aggregate_completion_order_invariant :
    (∀ rs rs' : List (Source × Outcome), List.Perm rs rs' → aggregate rs = aggregate rs') ∧
    (∀ rs : List (Source × Outcome),
        ((aggregate rs).findings).Sorted fle ∧ ((aggregate rs).sourceHealth).Sorted hle) := by
  refine ⟨fun rs rs' h => aggregate_perm_eq h, fun rs => ⟨?_, sortHealth_sorted _⟩⟩
  exact List.Pairwise.sublist (dedupAux_sublist [] _) (sortFindings_sorted _)

/-- Witness for C5: the two completion orders of the same connector results
produce identical aggregates. -/
theorem aggregate_completion_order_invariant_witness :
    aggregate scenarioRun = aggregate scenarioRunSwapped :=
  aggregate_completion_order_invariant.1 scenarioRun scenarioRunSwapped (by decide)

/-- C6: a request whose operation name is outside the fixed five-element set
is rejected by the Tool Dispatcher with the typed error INVALID_OPERATION
and an empty list of invoked connectors; in particular "frobnicate" is not a
valid operation name. -/
theorem dispatch_invalid_operation :
    (∀ (op : String) (args : ToolArgs) (conns : List (Source × Outcome)),
        op ∉ validOps →
        dispatch op args conns =
          (DispatchResult.error .INVALID_OPERATION ("Unknown operation: " ++ op), [])) ∧
    "frobnicate" ∉ validOps := by
  refine ⟨fun op args conns hop => ?_, by decide⟩
  simp only [validOps, List.mem_cons, List.mem_singleton, not_or] at hop
  obtain ⟨h1, h2, h3, h4, h5⟩ := hop
  simp [dispatch, h1, h2, h3, h4, h5]

/-- Witness for C6 at the concrete unknown operation name "frobnicate". -/
theorem dispatch_invalid_operation_witness :
    dispatch "frobnicate" ⟨Severity.HIGH, 3⟩ [] =
      (DispatchResult.error .INVALID_OPERATION ("Unknown operation: " ++ "frobnicate"), []) :=
  dispatch_invalid_operation.1 "frobnicate" ⟨Severity.HIGH, 3⟩ [] (by decide)

/-- C7: the Context Store follows last-write-wins by wall-clock generatedAt:
a put whose snapshot is older than the stored entry is a no-op, so put A
then put B with B older leaves get returning A. -/
theorem cache_last_write_wins :
    (∀ (st : ContextStore) (sid : String) (B old : Snapshot),
        storeGet st sid = some old → B.generatedAt < old.generatedAt →
        storePut st sid B = st) ∧
    (∀ (st : ContextStore) (sid : String) (A B : Snapshot),
        storeGet st sid = none → B.generatedAt < A.generatedAt →
        storePut (storePut st sid A) sid B = storePut st sid A ∧
        storeGet (storePut (storePut st sid A) sid B) sid = some A) := by
  have noop : ∀ (st : ContextStore) (sid : String) (B old : Snapshot),
      storeGet st sid = some old → B.generatedAt < old.generatedAt →
      storePut st sid B = st := by
    intro st sid B old hget hlt
    simp [storePut, hget, hlt]
  refine ⟨noop, fun st sid A B hnone hlt => ?_⟩
  have hputA : storePut st sid A = (sid, A) :: st := by simp [storePut, hnone]
  have hgetA : storeGet ((sid, A) :: st) sid = some A := by simp [storeGet]
  have hnoop : storePut ((sid, A) :: st) sid B = (sid, A) :: st := noop _ _ _ _ hgetA hlt
  rw [hputA]
  exact ⟨hnoop, by rw [hnoop]; exact hgetA⟩

/-- Witness for C7: putting an older snapshot after a newer one leaves the
newer one stored. -/
theorem cache_last_write_wins_witness :
    storeGet
        (storePut (storePut [] "42" ⟨10, ⟨[], [], false⟩⟩) "42" ⟨5, ⟨[], [], true⟩⟩) "42" =
      some ⟨10, ⟨[], [], false⟩⟩ :=
  (cache_last_write_wins.2 [] "42" ⟨10, ⟨[], [], false⟩⟩ ⟨5, ⟨[], [], true⟩⟩ rfl
    (by decide)).2

/-- C8: a get-findings request with a severity filter and a limit returns
only findings of the requested severity or above, drawn from the input,
with length at most the limit, ordered by severity descending then recency
descending; on the scenario of spec paragraph 8 (5 HIGH, 2 CRITICAL, plus
LOW and MEDIUM noise, filter HIGH, limit 3) it returns exactly the two
CRITICAL findings followed by the most recent HIGH finding. -/
theorem getFindings_filter_sort_limit :
    (∀ (sev : Severity) (limit : Nat) (fs : List Finding) (f : Finding),
        f ∈ getFindings sev limit fs → sev.rank ≤ f.severity.rank ∧ f ∈ fs) ∧
    (∀ (sev : Severity) (limit : Nat) (fs : List Finding),
        (getFindings sev limit fs).length ≤ limit) ∧
    (∀ (sev : Severity) (limit : Nat) (fs : List Finding),
        (getFindings sev limit fs).Sorted gle) ∧
    getFindings .HIGH 3 scenarioQueryFindings =
      [⟨.guardDuty, 7, .CRITICAL, .identityAccess, 2⟩,
       ⟨.guardDuty, 6, .CRITICAL, .identityAccess, 1⟩,
       ⟨.securityHub, 5, .HIGH, .infraProtection, 5⟩] := by
  refine ⟨fun sev limit fs f hf => ?_, fun sev limit fs => List.length_take_le _ _,
    fun sev limit fs => ?_, by decide⟩
  · have h1 := List.mem_of_mem_take hf
    have h2 := (List.perm_insertionSort gle _).subset h1
    have h3 := List.mem_filter.mp h2
    exact ⟨of_decide_eq_true h3.2, h3.1⟩
  · exact List.Pairwise.sublist (List.take_sublist _ _) (List.sorted_insertionSort gle _)

/-- Witness for C8: the top CRITICAL finding returned in the scenario is at
or above the HIGH filter and comes from the input findings. -/
theorem getFindings_filter_sort_limit_witness :
    Severity.HIGH.rank ≤
        (⟨Source.guardDuty, 7, .CRITICAL, .identityAccess, 2⟩ : Finding).severity.rank ∧
      (⟨Source.guardDuty, 7, .CRITICAL, .identityAccess, 2⟩ : Finding) ∈ scenarioQueryFindings :=
  getFindings_filter_sort_limit.1 Severity.HIGH 3 scenarioQueryFindings _ (by decide)

end SecEngine

namespace UI

/-- C9: for every sendMessage invocation with non-empty trimmed input while
authenticated, a failed agent invocation is caught inside sendMessage and
appended as a single bot message whose content is "Error: " followed by the
error's message; sendMessage is a total function (it never propagates an
error), and the loading flag ends up false whether the invocation succeeds
or fails. -/
theorem sendMessage_error_handling :
    (∀ (st : UIState) (m : String),
        trimmed st.input ≠ "" → st.isAuthenticated = true →
        (sendMessage st (.failure m)).messages =
          st.messages ++ [⟨"user", st.input⟩, ⟨"bot", "Error: " ++ m⟩] ∧
        (sendMessage st (.failure m)).loading = false) ∧
    (∀ (st : UIState) (outcome : InvokeOutcome),
        trimmed st.input ≠ "" → st.isAuthenticated = true →
        (sendMessage st outcome).loading = false) := by
  constructor
  · intro st m h1 h2
    simp [sendMessage, h1, h2]
  · intro st outcome h1 h2
    cases outcome <;> simp [sendMessage, h1, h2]

/-- Witness for C9 at a concrete authenticated state with input "hello" and
a failing invocation. -/
theorem sendMessage_error_handling_witness :
    (sendMessage ⟨[], "hello", false, true⟩ (.failure "boom")).messages =
        [⟨"user", "hello"⟩, ⟨"bot", "Error: " ++ "boom"⟩] ∧
    (sendMessage ⟨[], "hello", false, true⟩ (.failure "boom")).loading = false := by
  have h := sendMessage_error_handling.1 ⟨[], "hello", false, true⟩ "boom" (by decide) rfl
  exact ⟨by rw [h.1]; rfl, h.2⟩

/-- C10 counterexample: getSpecificMetrics does not use the "session-"
prefix; at metric type "posture" and clock 1234 its sessionId is
"posture-1234", not "session-1234". -/
theorem sessionId_not_always_session_prefixed :
    getSpecificMetricsSessionId "posture" 1234 ≠ "session-" ++ Nat.repr 1234 := by
  decide

/-- C10 (amended): sendMessage constructs its InvokeAgentCommand with a
sessionId equal to "session-" plus the millisecond timestamp, derived from
the clock alone and independent of the component state, while
getSpecificMetrics uses the metric type plus "-" plus the millisecond
timestamp; distinct clock readings yield distinct session ids (witnessed at
concrete times), so no session identifier is retained between messages. -/
theorem sessionId_fresh_per_call :
    (∀ (st : UIState) (now : Nat),
        (sendMessageCommand st now).sessionId = "session-" ++ Nat.repr now) ∧
    (∀ (st st' : UIState) (now : Nat),
        (sendMessageCommand st now).sessionId = (sendMessageCommand st' now).sessionId) ∧
    (∀ (ty : String) (now : Nat),
        getSpecificMetricsSessionId ty now = ty ++ "-" ++ Nat.repr now) ∧
    (sendMessageCommand ⟨[], "", false, false⟩ 1000).sessionId ≠
      (sendMessageCommand ⟨[], "", false, false⟩ 1001).sessionId :=
  ⟨fun _ _ => rfl, fun _ _ _ => rfl, fun _ _ => rfl, by decide⟩

end UI
